import Mathlib

/-!
Verification of the pending-write (POST confirmation) pipeline and the
tool-call loop of the python-ai-agent repository: a shallow embedding of
`post_handler.py` and `chat_service.py`.

Python strings are embedded as `List Char`; Python dicts produced by
`json.loads` as association lists preserving insertion order; `None` as
`Option.none` or `JVal.null` as the source position requires.  External
services (the FastMCP tool gateway `mcp_call_tool`, the OpenAI completion
call `get_ai_completion`) are oracles: the gateway is a function returning
`Except` (an exception carries its `str(e)` text), the completion provider
is a script of per-round answers (`none` = the provider yielded nothing).
-/

namespace PyAgent

/-- A Python string. -/
abbrev Str := List Char

/-- A JSON value as `json.loads` produces it.  Integer literals are
embedded as integers; a Python float (a fractional or exponent literal,
`NaN`, `Infinity` or `-Infinity`) is carried as the literal text it was
parsed from — its IEEE value is outside the embedding, and only the
success/failure and object-or-not classification of a parse feeds any
claim. -/
inductive JVal where
  | null : JVal
  | bool : Bool → JVal
  | num : Int → JVal
  | float : Str → JVal
  | str : String → JVal
  | arr : List JVal → JVal
  | obj : List (String × JVal) → JVal
deriving Repr

/-- A Python dict with string keys, as an insertion-ordered association list. -/
abbrev PyDict := List (String × JVal)

/-- `d[k]` / `d.get(k)`: the value stored at `k`. -/
def lookupKey (d : PyDict) (k : String) : Option JVal :=
  match d with
  | [] => none
  | (k0, v0) :: rest => if k0 = k then some v0 else lookupKey rest k

/-- `k in d` for a Python dict. -/
def hasKey (d : PyDict) (k : String) : Bool :=
  (lookupKey d k).isSome

/-- `d[k] = v`: overwrite in place, or append a new key at the end
(Python dict insertion-order semantics). -/
def insertKey (d : PyDict) (k : String) (v : JVal) : PyDict :=
  match d with
  | [] => [(k, v)]
  | (k0, v0) :: rest => if k0 = k then (k0, v) :: rest else (k0, v0) :: insertKey rest k v

/-- `JVal.null` test (`v is None` on a json-decoded value). -/
def isNull : JVal → Bool
  | .null => true
  | _ => false

/-! ### Substring search, mirroring `PAYLOAD_REGEX` of post_handler.py -/

/-- Does `s` start with `needle`? -/
def strStarts (needle : Str) (s : Str) : Bool :=
  match needle, s with
  | [], _ => true
  | _ :: _, [] => false
  | n :: ns, c :: cs => n == c && strStarts ns cs

/-- Leftmost occurrence of a (nonempty) `needle` in `s`:
`some (before, after)` with `s = before ++ needle ++ after`. -/
def splitOnce (needle : Str) : Str → Option (Str × Str)
  | [] => none
  | c :: rest =>
    if strStarts needle (c :: rest) then some ([], (c :: rest).drop needle.length)
    else
      match splitOnce needle rest with
      | some (b, a) => some (c :: b, a)
      | none => none

/-- `needle in s` for Python strings (nonempty needle). -/
def containsSub (needle : Str) (s : Str) : Bool :=
  (splitOnce needle s).isSome

/-- The literal opening marker of `PAYLOAD_REGEX`. -/
def openMarker : Str := "[TOOL_ARGS_JSON]".data

/-- The literal closing marker of `PAYLOAD_REGEX`. -/
def closeMarker : Str := "[/TOOL_ARGS_JSON]".data

/-- `PAYLOAD_REGEX.search`: the regex
`\[TOOL_ARGS_JSON\](.*?)\[/TOOL_ARGS_JSON\]` (DOTALL) matches at the
leftmost opening marker, with the non-greedy group running to the first
closing marker after it.  `some (before, group, after)`. -/
def searchPayload (s : Str) : Option (Str × Str × Str) :=
  match splitOnce openMarker s with
  | none => none
  | some (b, rest) =>
    match splitOnce closeMarker rest with
    | none => none
    | some (g, a) => some (b, g, a)

/-- One step of `PAYLOAD_REGEX.sub('', s)` driven by `fuel`: remove every
(non-overlapping, left-to-right) match.  Each match consumes at least the
two markers, so `fuel = s.length` steps always reach the fixpoint; fuel is
used only to make the recursion structural. -/
def subAllFuel : Nat → Str → Str
  | 0, s => s
  | fuel + 1, s =>
    match searchPayload s with
    | none => s
    | some (b, _, a) => b ++ subAllFuel fuel a

/-- `PAYLOAD_REGEX.sub('', s)`. -/
def subAll (s : Str) : Str :=
  subAllFuel s.length s

/-- Python `str.strip()` whitespace (the ASCII part; the markers and JSON
payloads under verification are ASCII). -/
def isPySpace (c : Char) : Bool :=
  c == ' ' || c == '\t' || c == '\n' || c == '\r' || c == '\x0b' || c == '\x0c'

/-- Python `str.strip()`. -/
def stripStr (s : Str) : Str :=
  ((s.dropWhile isPySpace).reverse.dropWhile isPySpace).reverse

/-! ### `json.loads`, fuel-driven recursive descent

Mirrors CPython's `json` decoder in strict (default) mode: the
whitespace set; strings with the eight simple escapes and `\uXXXX`
(surrogate pairs combined), rejecting invalid escapes and unescaped
control characters; the `NUMBER_RE` number token
`-?(0|[1-9]\d*)(\.\d+)?([eE][+-]?\d+)?` (so a leading-zero integer such
as `01` scans as `0` and the leftover digit fails as extra data), with
non-integer tokens and the `NaN`/`Infinity`/`-Infinity` constants
producing floats; objects and arrays without trailing commas; and the
whole-document check rejecting trailing non-whitespace.  Duplicate
object keys keep the last value in the first key's position, as Python
dicts do.  A lone surrogate from a `\uXXXX` escape — a code point a
Python `str` holds but a Unicode scalar cannot — is embedded as U+FFFD;
this never changes whether a parse succeeds. -/

/-- JSON whitespace. -/
def isJsonWs (c : Char) : Bool :=
  c == ' ' || c == '\t' || c == '\n' || c == '\r'

/-- One hexadecimal digit. -/
def hexVal (c : Char) : Option Nat :=
  if '0' ≤ c ∧ c ≤ '9' then some (c.toNat - 48)
  else if 'a' ≤ c ∧ c ≤ 'f' then some (c.toNat - 87)
  else if 'A' ≤ c ∧ c ≤ 'F' then some (c.toNat - 55)
  else none

/-- Four hexadecimal digits of a `\uXXXX` escape. -/
def hex4 : Str → Option (Nat × Str)
  | c1 :: c2 :: c3 :: c4 :: rest =>
    match hexVal c1, hexVal c2, hexVal c3, hexVal c4 with
    | some h1, some h2, some h3, some h4 =>
      some (((h1 * 16 + h2) * 16 + h3) * 16 + h4, rest)
    | _, _, _, _ => none
  | _ => none

/-- The character a decoded `\uXXXX` code point embeds as: a lone
surrogate becomes U+FFFD (see the section comment). -/
def charOfCodePoint (u : Nat) : Char :=
  if 0xD800 ≤ u ∧ u ≤ 0xDFFF then Char.ofNat 0xFFFD else Char.ofNat u

/-- The rest of a JSON string literal after its opening quote, driven by
`fuel` (every step consumes at least one input character):
`some (content, rest-after-closing-quote)`.  Strict mode: an unescaped
control character (below U+0020) or an invalid escape fails. -/
def parseStringRestF : Nat → Str → Option (Str × Str)
  | 0, _ => none
  | _ + 1, [] => none
  | fuel + 1, c :: rest =>
    if c = '"' then some ([], rest)
    else if c = '\\' then
      match rest with
      | [] => none
      | e :: rest2 =>
        if e = 'u' then
          match hex4 rest2 with
          | none => none
          | some (u, r) =>
            if 0xD800 ≤ u ∧ u ≤ 0xDBFF then
              -- a high surrogate looks ahead for a low-surrogate escape
              match r with
              | '\\' :: 'u' :: r2 =>
                match hex4 r2 with
                | none => none
                | some (u2, r3) =>
                  if 0xDC00 ≤ u2 ∧ u2 ≤ 0xDFFF then
                    match parseStringRestF fuel r3 with
                    | none => none
                    | some (content, rr) =>
                      some (Char.ofNat (0x10000 + (u - 0xD800) * 0x400 + (u2 - 0xDC00))
                        :: content, rr)
                  else
                    match parseStringRestF fuel r with
                    | none => none
                    | some (content, rr) => some (charOfCodePoint u :: content, rr)
              | _ =>
                match parseStringRestF fuel r with
                | none => none
                | some (content, rr) => some (charOfCodePoint u :: content, rr)
            else
              match parseStringRestF fuel r with
              | none => none
              | some (content, rr) => some (charOfCodePoint u :: content, rr)
        else
          let dec : Option Char :=
            if e = '"' then some '"'
            else if e = '\\' then some '\\'
            else if e = '/' then some '/'
            else if e = 'b' then some (Char.ofNat 8)
            else if e = 'f' then some (Char.ofNat 12)
            else if e = 'n' then some '\n'
            else if e = 'r' then some '\r'
            else if e = 't' then some '\t'
            else none
          match dec with
          | none => none
          | some d =>
            match parseStringRestF fuel rest2 with
            | none => none
            | some (content, r) => some (d :: content, r)
    else if c.toNat < 32 then none
    else
      match parseStringRestF fuel rest with
      | none => none
      | some (content, r) => some (c :: content, r)

/-- The rest of a JSON string literal after its opening quote. -/
def parseStringRest (s : Str) : Option (Str × Str) :=
  parseStringRestF (s.length + 1) s

/-- Digits to a natural number. -/
def digitsToNat (ds : Str) : Nat :=
  ds.foldl (fun acc c => acc * 10 + (c.toNat - 48)) 0

/-- The integer part `0|[1-9]\d*` of `NUMBER_RE`: a leading zero takes
no further digits. -/
def parseIntPart : Str → Option (Str × Str)
  | [] => none
  | c :: rest =>
    if c = '0' then some (['0'], rest)
    else if c.isDigit then some (c :: rest.takeWhile Char.isDigit, rest.dropWhile Char.isDigit)
    else none

/-- The optional fraction part `(\.\d+)?` of `NUMBER_RE`: the dot is
consumed only when at least one digit follows. -/
def parseFracPart : Str → Str × Str
  | '.' :: rest =>
    let ds := rest.takeWhile Char.isDigit
    if ds.isEmpty then ([], '.' :: rest) else ('.' :: ds, rest.dropWhile Char.isDigit)
  | s => ([], s)

/-- The optional exponent part `([eE][+-]?\d+)?` of `NUMBER_RE`: consumed
only when its digits are present. -/
def parseExpPart : Str → Str × Str
  | [] => ([], [])
  | e :: rest =>
    if e = 'e' ∨ e = 'E' then
      match rest with
      | [] => ([], [e])
      | sign :: rest2 =>
        if sign = '+' ∨ sign = '-' then
          let ds := rest2.takeWhile Char.isDigit
          if ds.isEmpty then ([], e :: sign :: rest2)
          else (e :: sign :: ds, rest2.dropWhile Char.isDigit)
        else
          let ds := rest.takeWhile Char.isDigit
          if ds.isEmpty then ([], e :: rest)
          else (e :: ds, rest.dropWhile Char.isDigit)
    else ([], e :: rest)

/-- The `NUMBER_RE` token: an integer when neither fraction nor exponent
part is present, otherwise a float carried as its literal text. -/
def parseNumber (s : Str) : Option (JVal × Str) :=
  let neg : Bool := match s with | '-' :: _ => true | _ => false
  let s1 : Str := match s with | '-' :: r => r | _ => s
  match parseIntPart s1 with
  | none => none
  | some (ds, rest1) =>
    let (fracLit, rest2) := parseFracPart rest1
    let (expLit, rest3) := parseExpPart rest2
    if fracLit.isEmpty && expLit.isEmpty then
      let n : Int := Int.ofNat (digitsToNat ds)
      some (.num (if neg then -n else n), rest3)
    else
      some (.float ((if neg then ['-'] else []) ++ ds ++ fracLit ++ expLit), rest3)

mutual

/-- A JSON value with surrounding whitespace skipped on the left. -/
def parseValueF : Nat → Str → Option (JVal × Str)
  | 0, _ => none
  | fuel + 1, s =>
    let s := s.dropWhile isJsonWs
    match s with
    | [] => none
    | c :: rest =>
      if c = '\x7b' then parseObjF fuel rest
      else if c = '[' then parseArrF fuel rest
      else if c = '"' then
        match parseStringRest rest with
        | none => none
        | some (content, r) => some (.str (String.mk content), r)
      else if c = 't' then
        if strStarts "rue".data rest then some (.bool true, rest.drop 3) else none
      else if c = 'f' then
        if strStarts "alse".data rest then some (.bool false, rest.drop 4) else none
      else if c = 'n' then
        if strStarts "ull".data rest then some (.null, rest.drop 3) else none
      else if c = 'N' then
        if strStarts "aN".data rest then some (.float "NaN".data, rest.drop 2) else none
      else if c = 'I' then
        if strStarts "nfinity".data rest then some (.float "Infinity".data, rest.drop 7)
        else none
      else if c = '-' then
        if strStarts "Infinity".data rest then some (.float "-Infinity".data, rest.drop 8)
        else parseNumber (c :: rest)
      else parseNumber (c :: rest)

/-- An object body, after the opening brace. -/
def parseObjF : Nat → Str → Option (JVal × Str)
  | 0, _ => none
  | fuel + 1, s =>
    let s := s.dropWhile isJsonWs
    match s with
    | '\x7d' :: rest => some (.obj [], rest)
    | _ => parseMembersF fuel s []

/-- `"key": value` pairs separated by commas, up to the closing brace. -/
def parseMembersF : Nat → Str → PyDict → Option (JVal × Str)
  | 0, _, _ => none
  | fuel + 1, s, acc =>
    let s := s.dropWhile isJsonWs
    match s with
    | '"' :: rest =>
      match parseStringRest rest with
      | none => none
      | some (k, rest2) =>
        match rest2.dropWhile isJsonWs with
        | ':' :: rest3 =>
          match parseValueF fuel rest3 with
          | none => none
          | some (v, rest4) =>
            let acc2 := insertKey acc (String.mk k) v
            match rest4.dropWhile isJsonWs with
            | ',' :: rest5 => parseMembersF fuel rest5 acc2
            | '\x7d' :: rest5 => some (.obj acc2, rest5)
            | _ => none
        | _ => none
    | _ => none

/-- An array body, after the opening bracket. -/
def parseArrF : Nat → Str → Option (JVal × Str)
  | 0, _ => none
  | fuel + 1, s =>
    let s := s.dropWhile isJsonWs
    match s with
    | ']' :: rest => some (.arr [], rest)
    | _ => parseElemsF fuel s []

/-- Array elements separated by commas, up to the closing bracket. -/
def parseElemsF : Nat → Str → List JVal → Option (JVal × Str)
  | 0, _, _ => none
  | fuel + 1, s, acc =>
    match parseValueF fuel s with
    | none => none
    | some (v, rest) =>
      match rest.dropWhile isJsonWs with
      | ',' :: rest2 => parseElemsF fuel rest2 (acc ++ [v])
      | ']' :: rest2 => some (.arr (acc ++ [v]), rest2)
      | _ => none

end

/-- `json.loads`: a whole document, trailing whitespace only.  Every unit
of nesting costs a bounded number of fuel steps and consumes at least one
input character, so `4 * length + 8` fuel never runs out before the
grammar itself fails. -/
def jsonLoads (s : Str) : Option JVal :=
  match parseValueF (4 * s.length + 8) s with
  | none => none
  | some (v, rest) => if (rest.dropWhile isJsonWs).isEmpty then some v else none

/-! ### The session data model (the per-user `user_state` dict) -/

/-- One tool-call request of an assistant message:
`{"id": ..., "function": {"name": ..., "arguments": ...}}`. -/
structure ToolCall where
  id : String
  fn : String
  arguments : Option Str
deriving Repr

/-- An assistant message as `get_ai_completion` returns it
(`ai_msg.get("tool_calls") or []` flattens an absent list to `[]`,
embedded directly as a list). -/
structure AiMsg where
  content : Option Str
  tool_calls : List ToolCall
deriving Repr

/-- One entry of the per-user `messages` history. -/
inductive Msg where
  | system (content : Str)
  | user (content : Str)
  | assistant (m : AiMsg)
  | tool (tool_call_id : String) (content : Str)
deriving Repr

/-- The per-user `user_state` dict: the `messages` history (`none` when
the key is absent, so `setdefault` installs the system prompt) and the
pending-write slot keys `pending_tool_payload` / `pending_tool_name`. -/
structure UserState where
  messages : Option (List Msg)
  pending_tool_payload : Option PyDict
  pending_tool_name : Option String
deriving Repr

/-- A fresh session: no history, nothing pending. -/
def emptyState : UserState :=
  { messages := none, pending_tool_payload := none, pending_tool_name := none }

/-- The Remote Tool Gateway `mcp_call_tool`: `.error e` is a raised
exception whose `str(e)` is `e`. -/
abbrev Gateway := String → PyDict → Except Str JVal

/-! ### post_handler.py -/

/-- `MAX_PAYLOAD_CHARS` of post_handler.py. -/
def MAX_PAYLOAD_CHARS : Nat := 50000

/-- `ALLOWED_POST_TOOLS` of post_handler.py (a set; only membership is
used). -/
def ALLOWED_POST_TOOLS : List String :=
  ["post_tvr_report", "post_dvr_report", "post_sales_order"]

/-- The heuristic chain of `_pick_tool_name` (the early returns written
as an if/else chain). -/
def heuristicName (payload : PyDict) : String :=
  if hasKey payload "siteNameConcernedPerson" && hasKey payload "clientsRemarks" then
    "post_tvr_report"
  else if hasKey payload "dealerTotalPotential" && hasKey payload "todayCollectionRupees" then
    "post_dvr_report"
  else if hasKey payload "orderTotal" && hasKey payload "estimatedDelivery" then
    "post_sales_order"
  else
    "post_sales_order"

/-- `_pick_tool_name` of post_handler.py: an explicit string hint under
`__tool` wins when it is one of `ALLOWED_POST_TOOLS`; otherwise the
heuristics run. -/
def «_pick_tool_name» (payload : PyDict) : String :=
  match lookupKey payload "__tool" with
  | some (.str hint) =>
    if ALLOWED_POST_TOOLS.contains hint then hint else heuristicName payload
  | _ => heuristicName payload

/-- `_guard_payload` of post_handler.py: size check, then `json.loads`,
then the result must be a dict. -/
def «_guard_payload» (json_text : Str) : Option PyDict :=
  if json_text.length > MAX_PAYLOAD_CHARS then none
  else
    match jsonLoads json_text with
    | some (.obj fields) => some fields
    | some _ => none
    | none => none

/-- `"_".replace` then `.title()` of the Python header: capitalize the
first letter of each alphabetic run. -/
def titleAux (prevCased : Bool) : Str → Str
  | [] => []
  | c :: rest =>
    let cased := c.isAlpha
    let c2 := if cased then (if prevCased then c.toLower else c.toUpper) else c
    c2 :: titleAux cased rest

/-- Python `str.title()` (on the ASCII tool names in play). -/
def pyTitle (s : Str) : Str := titleAux false s

mutual

/-- `json.dumps` on a decoded value.  The embedding serializes compactly
and without string escaping: no claim inspects serialized text, the
serializer only has to be a total function. -/
def dumpJson : JVal → Str
  | .null => "null".data
  | .bool true => "true".data
  | .bool false => "false".data
  | .num n => (toString n).data
  | .float lit => lit
  | .str s => '"' :: s.data ++ ['"']
  | .arr xs => '[' :: dumpList xs ++ [']']
  | .obj fs => '\x7b' :: dumpFields fs ++ ['\x7d']

/-- Array elements, comma-separated. -/
def dumpList : List JVal → Str
  | [] => []
  | x :: rest => dumpJson x ++ (if rest.isEmpty then [] else [',']) ++ dumpList rest

/-- Object members, comma-separated. -/
def dumpFields : List (String × JVal) → Str
  | [] => []
  | (k, v) :: rest =>
    ('"' :: k.data ++ '"' :: ':' :: dumpJson v)
      ++ (if rest.isEmpty then [] else [',']) ++ dumpFields rest

end

/-- The success header of `execute_pending_post_core`:
`f"✔ {name.replace('_', ' ').title()} submitted.\n\n"`. -/
def successHeader (toolName : String) : Str :=
  "✔ ".data ++ pyTitle (toolName.data.map (fun c => if c = '_' then ' ' else c))
    ++ " submitted.\n\n".data

/-- The failure text of `execute_pending_post_core`:
`f"✖ Submission failed for {name}:\n{e}"`. -/
def failureText (toolName : String) (e : Str) : Str :=
  "✖ Submission failed for ".data ++ toolName.data ++ ":\n".data ++ e

/-- `execute_pending_post_core` of post_handler.py.  Both slot keys are
popped before anything else; the call happens only when both popped
values are truthy (a nonempty dict and a nonempty name); an exception
from the gateway is caught and reported, still with
`was_executed = true`.  Returns `((was_executed, response_text,
tool_result), the mutated user_state)`. -/
def execute_pending_post_core (gw : Gateway) (st : UserState) :
    (Bool × Str × Option JVal) × UserState :=
  let st1 : UserState := { st with pending_tool_payload := none, pending_tool_name := none }
  match st.pending_tool_payload, st.pending_tool_name with
  | some pending_payload, some pending_tool_name =>
    if !pending_payload.isEmpty && !(pending_tool_name == "") then
      match gw pending_tool_name pending_payload with
      | .ok tool_result =>
        ((true, successHeader pending_tool_name ++ dumpJson tool_result, some tool_result), st1)
      | .error e =>
        ((true, failureText pending_tool_name e, none), st1)
    else ((false, [], none), st1)
  | _, _ => ((false, [], none), st1)

/-- `check_and_store_post_request_core` of post_handler.py.  Returns
`((is_confirmation_request, display_text, tool_name, payload), the
mutated user_state)`. -/
def check_and_store_post_request_core (final_answer : Str) (st : UserState) :
    (Bool × Str × Option String × Option PyDict) × UserState :=
  if final_answer.isEmpty || !containsSub openMarker final_answer then
    ((false, final_answer, none, none), st)
  else
    match searchPayload final_answer with
    | none => ((false, final_answer, none, none), st)
    | some (_, grp, _) =>
      let json_string := stripStr grp
      match «_guard_payload» json_string with
      | none => ((false, final_answer, none, none), st)
      | some payload =>
        let tool_name := «_pick_tool_name» payload
        let st2 : UserState :=
          { st with pending_tool_payload := some payload, pending_tool_name := some tool_name }
        let display_answer := stripStr (subAll final_answer)
        ((true, display_answer, some tool_name, some payload), st2)

/-! ### chat_service.py -/

/-- The empty-object JSON text, the `"\x7b\x7d"` default of
`tc["function"].get("arguments") or "\x7b\x7d"`. -/
def emptyObjText : Str := "\x7b\x7d".data

/-- `tc["function"].get("arguments") or "\x7b\x7d"`: an absent or empty
(falsy) arguments string becomes the empty object text. -/
def rawArguments (tc : ToolCall) : Str :=
  match tc.arguments with
  | none => emptyObjText
  | some a => if a.isEmpty then emptyObjText else a

/-- The `CLEAN` set of tool-schema metadata keys scrubbed from call
arguments. -/
def CLEAN : List String :=
  ["inputSchema", "name", "parameters", "title", "description",
   "outputSchema", "icons", "_meta", "annotations", "required"]

/-- The argument-sanitizer dict comprehension:
keep `(k, v)` iff `k not in CLEAN and v is not None`.  A pure total
function: it never raises. -/
def scrubArgs (args : PyDict) : PyDict :=
  args.filter (fun kv => !(CLEAN.contains kv.1) && !(isNull kv.2))

/-- The one uncaught exception of the loop body: `args.items()` on a
non-dict (`json.loads` succeeded with a value that is not an object). -/
inductive PyErr where
  | attributeError : PyErr
deriving Repr

/-- `try: args = json.loads(raw) except: args = \x7b\x7d` — the parsed
arguments value, a parse failure caught and replaced by the empty dict. -/
def argsValueOf (tc : ToolCall) : JVal :=
  match jsonLoads (rawArguments tc) with
  | none => .obj []
  | some v => v

/-- The body of the per-call part of the tool loop: parse the arguments
(a parse failure is caught, `args` becomes the empty dict), scrub them,
call the gateway (an exception is caught and becomes the tool message's
content), and produce the appended `tool`-role message.  `.error` is the
uncaught `AttributeError` when the parsed arguments are not a dict
(`args.items()` on a non-dict). -/
def processToolCall (gw : Gateway) (tc : ToolCall) : Except PyErr Msg :=
  match argsValueOf tc with
  | .obj fields =>
    match gw tc.fn (scrubArgs fields) with
    | .ok result => .ok (.tool tc.id (dumpJson result))
    | .error e =>
      .ok (.tool tc.id ("Error executing tool ".data ++ tc.fn.data ++ ": ".data ++ e))
  | _ => .error .attributeError

/-- The `for tc in tool_calls` loop: append one tool message per call, in
order; an uncaught exception aborts the round, keeping the messages
appended so far. -/
def runToolCalls (gw : Gateway) (msgs : List Msg) : List ToolCall → List Msg × Option PyErr
  | [] => (msgs, none)
  | tc :: rest =>
    match processToolCall gw tc with
    | .ok m => runToolCalls gw (msgs ++ [m]) rest
    | .error e => (msgs, some e)

/-- The fixed degraded reply when the provider yields nothing. -/
def degradedReply : Str := "Model returned nothing. Try again.".data

/-- The `while True` loop of `ChatService.handle`, one script entry per
provider round (`none` = the provider yielded nothing; an exhausted
script is embedded the same way).  Returns `(the (display_text,
awaiting_confirmation) result or the uncaught exception, the mutated
user_state)`. -/
def chatLoop (gw : Gateway) : List (Option AiMsg) → UserState → Except PyErr (Str × Bool) × UserState
  | [], st => (.ok (degradedReply, false), st)
  | none :: _, st => (.ok (degradedReply, false), st)
  | some ai :: script, st =>
    let msgs := st.messages.getD [] ++ [Msg.assistant ai]
    let st2 : UserState := { st with messages := some msgs }
    match ai.tool_calls with
    | [] =>
      let final_text : Str :=
        match ai.content with
        | none => "...".data
        | some c => if c.isEmpty then "...".data else c
      let r := check_and_store_post_request_core final_text st2
      (.ok (r.1.2.1, r.1.1), r.2)
    | tc :: tcs =>
      match runToolCalls gw msgs (tc :: tcs) with
      | (msgs2, none) => chatLoop gw script { st2 with messages := some msgs2 }
      | (msgs2, some e) => (.error e, { st2 with messages := some msgs2 })

/-- `ChatService.handle`: install the system prompt when the history key
is absent, append the user message, and run the loop.  The system
prompt's text lives in `ai_prompt_helper.get_system_prompt` and never
influences control flow, so it is a parameter. -/
def ChatService.handle (gw : Gateway) (sysPrompt : Str) (script : List (Option AiMsg))
    (st : UserState) (text : Str) : Except PyErr (Str × Bool) × UserState :=
  let msgs0 :=
    match st.messages with
    | none => [Msg.system sysPrompt]
    | some ms => ms
  let msgs1 := msgs0 ++ [Msg.user text]
  chatLoop gw script { st with messages := some msgs1 }

/-- `ChatService.confirm_post`: execute the stored POST; when nothing was
executed the user sees the fixed "Nothing to submit." text. -/
def ChatService.confirm_post (gw : Gateway) (st : UserState) : Str × UserState :=
  let r := execute_pending_post_core gw st
  if r.1.1 then (r.1.2.1, r.2) else ("Nothing to submit.".data, r.2)

/-! ### Helper lemmas on the marker search -/

lemma strStarts_append (n s : Str) : strStarts n (n ++ s) = true := by
  induction n with
  | nil => rfl
  | cons c cs ih => simp [strStarts, ih]

lemma strStarts_eq_append {n s : Str} (h : strStarts n s = true) :
    s = n ++ s.drop n.length := by
  induction n generalizing s with
  | nil => simp
  | cons c cs ih =>
    cases s with
    | nil => simp [strStarts] at h
    | cons d ds =>
      simp only [strStarts, Bool.and_eq_true, beq_iff_eq] at h
      obtain ⟨rfl, h2⟩ := h
      simpa using ih h2

lemma splitOnce_eq_append {n : Str} :
    ∀ {s b a : Str}, splitOnce n s = some (b, a) → s = b ++ n ++ a := by
  intro s
  induction s with
  | nil => intro b a h; simp [splitOnce] at h
  | cons c cs ih =>
    intro b a h
    simp only [splitOnce] at h
    by_cases hs : strStarts n (c :: cs) = true
    · rw [if_pos hs, Option.some.injEq, Prod.mk.injEq] at h
      obtain ⟨hb, ha⟩ := h
      subst hb; subst ha
      simpa using strStarts_eq_append hs
    · rw [if_neg hs] at h
      cases hsp : splitOnce n cs with
      | none => rw [hsp] at h; simp at h
      | some p =>
        obtain ⟨b2, a2⟩ := p
        rw [hsp, Option.some.injEq, Prod.mk.injEq] at h
        obtain ⟨hb, ha⟩ := h
        subst hb; subst ha
        have h2 := ih hsp
        simp [h2]

lemma drop_len_append (l s : Str) : (l ++ s).drop l.length = s := by
  induction l with
  | nil => simp
  | cons c cs ih => simp [ih]

lemma splitOnce_self {n : Str} (hn : n ≠ []) (s : Str) :
    splitOnce n (n ++ s) = some ([], s) := by
  cases n with
  | nil => exact absurd rfl hn
  | cons d n2 =>
    have h1 : strStarts (d :: n2) (d :: (n2 ++ s)) = true := strStarts_append (d :: n2) s
    show splitOnce (d :: n2) (d :: (n2 ++ s)) = some ([], s)
    simp only [splitOnce]
    rw [if_pos h1, Option.some.injEq, Prod.mk.injEq]
    exact ⟨rfl, drop_len_append (d :: n2) s⟩

lemma splitOnce_skip {d : Char} {n : Str} {l : Str} (hl : ∀ c ∈ l, c ≠ d) (s : Str) :
    splitOnce (d :: n) (l ++ s) =
      (splitOnce (d :: n) s).map (fun p => (l ++ p.1, p.2)) := by
  induction l with
  | nil =>
    simp only [List.nil_append]
    cases splitOnce (d :: n) s with
    | none => rfl
    | some p => simp
  | cons c cs ih =>
    have hcd : (d == c) = false := by
      have : d ≠ c := fun h => hl c (List.mem_cons_self c cs) h.symm
      simpa using this
    have hstart : strStarts (d :: n) (c :: (cs ++ s)) = false := by
      simp [strStarts, hcd]
    show splitOnce (d :: n) (c :: (cs ++ s)) = _
    simp only [splitOnce]
    rw [if_neg (by simp [hstart])]
    rw [ih (fun x hx => hl x (List.mem_cons_of_mem c hx))]
    cases splitOnce (d :: n) s with
    | none => rfl
    | some p => simp

lemma searchPayload_wrap {l : Str} (hl : ∀ c ∈ l, c ≠ '[') :
    searchPayload (openMarker ++ (l ++ closeMarker)) = some ([], l, []) := by
  have hopen : openMarker ≠ [] := by decide
  have hclose : closeMarker = '[' :: "/TOOL_ARGS_JSON]".data := by decide
  have hself : splitOnce ('[' :: "/TOOL_ARGS_JSON]".data) ('[' :: "/TOOL_ARGS_JSON]".data)
      = some ([], []) := by decide
  have h2 : splitOnce closeMarker (l ++ closeMarker) = some (l, []) := by
    rw [hclose, splitOnce_skip hl, hself]
    simp
  simp only [searchPayload]
  rw [splitOnce_self hopen]
  simp [h2]

/-! ### Helper lemmas on whitespace stripping -/

lemma dropWhile_replicate_append (p : Char → Bool) {c : Char} (hp : p c = true)
    (k : Nat) (s : Str) :
    List.dropWhile p (List.replicate k c ++ s) = List.dropWhile p s := by
  induction k with
  | zero => simp
  | succ k ih => simp [List.replicate_succ, List.dropWhile_cons, hp, ih]

lemma dropWhile_replicate_self (p : Char → Bool) {c : Char} (hp : p c = false) (k : Nat) :
    List.dropWhile p (List.replicate k c) = List.replicate k c := by
  cases k with
  | zero => rfl
  | succ k => simp [List.replicate_succ, List.dropWhile_cons, hp]

lemma stripStr_replicate {c : Char} (hp : isPySpace c = false) (k : Nat) :
    stripStr (List.replicate k c) = List.replicate k c := by
  unfold stripStr
  rw [dropWhile_replicate_self _ hp, List.reverse_replicate,
    dropWhile_replicate_self _ hp, List.reverse_replicate]

/-! ### State facts about the Pending-Write Executor -/

lemma execute_pending_state (gw : Gateway) (st : UserState) :
    (execute_pending_post_core gw st).2
      = { st with pending_tool_payload := none, pending_tool_name := none } := by
  obtain ⟨ms, pp, pn⟩ := st
  cases pp with
  | none => cases pn <;> rfl
  | some p =>
    cases pn with
    | none => rfl
    | some n =>
      simp only [execute_pending_post_core]
      split
      · cases gw n p <;> rfl
      · rfl

/-! ### The claims -/

/-- C1: the pending-write slot has pop (consume-exactly-once) semantics.
Every execution clears both `pending_tool_payload` and
`pending_tool_name` (whatever the session state and gateway behaviour);
an execution on a session with no staged payload returns
`was_executed = false` and the "Nothing to submit." display path; and a
second execution right after any execution (no new extraction) returns
`was_executed = false` again. -/
theorem claim_C1 (gw gw2 : Gateway) (st : UserState) :
    ((execute_pending_post_core gw st).2.pending_tool_payload = none ∧
     (execute_pending_post_core gw st).2.pending_tool_name = none) ∧
    (execute_pending_post_core gw { st with pending_tool_payload := none }).1.1 = false ∧
    (ChatService.confirm_post gw { st with pending_tool_payload := none }).1
      = "Nothing to submit.".data ∧
    (execute_pending_post_core gw2 (execute_pending_post_core gw st).2).1.1 = false := by
  obtain ⟨ms, pp, pn⟩ := st
  refine ⟨⟨?_, ?_⟩, ?_, ?_, ?_⟩
  · rw [execute_pending_state]
  · rw [execute_pending_state]
  · rfl
  · rfl
  · rw [execute_pending_state]; rfl

/-- C6: when the gateway raises on a confirmed write, the executor
reports `was_executed = true` with the failure text (which spells out the
operation name and the error detail), makes exactly the one gateway call
(no retry is modelled anywhere in the source), and the pending slot ends
cleared. -/
theorem claim_C6 (gw : Gateway) (st : UserState) (p : PyDict) (n : String) (e : Str)
    (hp : st.pending_tool_payload = some p) (hn : st.pending_tool_name = some n)
    (hpe : p ≠ []) (hne : n ≠ "") (hg : gw n p = .error e) :
    execute_pending_post_core gw st =
      ((true, failureText n e, none),
       { st with pending_tool_payload := none, pending_tool_name := none }) := by
  obtain ⟨ms, pp, pn⟩ := st
  dsimp only at hp hn
  subst hp; subst hn
  rcases p with _ | ⟨kv, p2⟩
  · exact absurd rfl hpe
  have hcond : (!(kv :: p2 : PyDict).isEmpty && !(n == "")) = true := by
    simp [hne]
  simp only [execute_pending_post_core]
  rw [if_pos hcond, hg]

/-- Witness for C6 at a concrete session, payload and failing gateway. -/
theorem claim_C6_witness :
    execute_pending_post_core (fun _ _ => Except.error "boom".data)
      { messages := none,
        pending_tool_payload := some [("dealerTotalPotential", JVal.num 50)],
        pending_tool_name := some "post_dvr_report" } =
      ((true, failureText "post_dvr_report" "boom".data, none),
       { messages := none, pending_tool_payload := none, pending_tool_name := none }) :=
  claim_C6 (fun _ _ => Except.error "boom".data)
    { messages := none,
      pending_tool_payload := some [("dealerTotalPotential", JVal.num 50)],
      pending_tool_name := some "post_dvr_report" }
    [("dealerTotalPotential", JVal.num 50)] "post_dvr_report" "boom".data
    rfl rfl (List.cons_ne_nil _ _) (by decide) rfl

/-- C8: the Pending-Write Extractor is the identity on marker-free final
text: without the opening marker substring it returns
`(false, final_text, none, none)` and mutates nothing on the session. -/
theorem claim_C8 (t : Str) (st : UserState) (h : containsSub openMarker t = false) :
    check_and_store_post_request_core t st = ((false, t, none, none), st) := by
  simp [check_and_store_post_request_core, h]

/-- Witness for C8 on a plain conversational answer. -/
theorem claim_C8_witness :
    check_and_store_post_request_core "hello".data emptyState
      = ((false, "hello".data, none, none), emptyState) :=
  claim_C8 "hello".data emptyState (by decide)

/-- C10: a marker block enclosing exactly the empty JSON object is
accepted by the extractor (`is_confirmation_request = true`, empty
payload and the fallback operation name stored on the session), yet the
executor then returns `was_executed = false` for every gateway — the
empty dict is falsy in `if pending_payload and pending_tool_name`, so
the staged write can never execute, and the slot is popped anyway. -/
theorem claim_C10 :
    (check_and_store_post_request_core (openMarker ++ emptyObjText ++ closeMarker)
        emptyState).1.1 = true ∧
    (check_and_store_post_request_core (openMarker ++ emptyObjText ++ closeMarker)
        emptyState).2.pending_tool_payload = some [] ∧
    (check_and_store_post_request_core (openMarker ++ emptyObjText ++ closeMarker)
        emptyState).2.pending_tool_name = some "post_sales_order" ∧
    ∀ gw : Gateway,
      (execute_pending_post_core gw
          (check_and_store_post_request_core (openMarker ++ emptyObjText ++ closeMarker)
            emptyState).2).1 = (false, [], none) ∧
      (execute_pending_post_core gw
          (check_and_store_post_request_core (openMarker ++ emptyObjText ++ closeMarker)
            emptyState).2).2.pending_tool_payload = none :=
  ⟨rfl, rfl, rfl, fun _ => ⟨rfl, rfl⟩⟩

/-! ### C3: the classification policy, restated from the spec's words -/

/-- The explicit-hint rule as the spec words it: the hint field wins
exactly when it names a member of the closed set of write-operation
names. -/
def hintOfSpec (p : PyDict) : Option String :=
  match lookupKey p "__tool" with
  | some (.str h) => if ALLOWED_POST_TOOLS.contains h then some h else none
  | _ => none

/-- The fixed priority-ordered list of structural heuristics as the spec
words it: each entry is "payload contains these signature field names"
for one operation, checked in this order. -/
def heuristicRulesSpec : List (List String × String) :=
  [(["siteNameConcernedPerson", "clientsRemarks"], "post_tvr_report"),
   (["dealerTotalPotential", "todayCollectionRupees"], "post_dvr_report"),
   (["orderTotal", "estimatedDelivery"], "post_sales_order")]

/-- The classification policy restated from the spec: hint first, then
the first matching heuristic of the priority list, then the fixed
fallback default. -/
def pickToolNameSpec (p : PyDict) : String :=
  match hintOfSpec p with
  | some h => h
  | none =>
    match heuristicRulesSpec.find? (fun r => r.1.all (fun k => hasKey p k)) with
    | some r => r.2
    | none => "post_sales_order"

lemma heuristicName_eq_rules (p : PyDict) :
    heuristicName p =
      (match heuristicRulesSpec.find? (fun r => r.1.all (fun k => hasKey p k)) with
       | some r => r.2
       | none => "post_sales_order") := by
  unfold heuristicName heuristicRulesSpec
  by_cases h1 : hasKey p "siteNameConcernedPerson" = true <;>
    by_cases h2 : hasKey p "clientsRemarks" = true <;>
    by_cases h3 : hasKey p "dealerTotalPotential" = true <;>
    by_cases h4 : hasKey p "todayCollectionRupees" = true <;>
    by_cases h5 : hasKey p "orderTotal" = true <;>
    by_cases h6 : hasKey p "estimatedDelivery" = true <;>
    simp_all [List.find?]

/-- C3: `_pick_tool_name` implements the spec's fixed-priority
classification: the in-set hint wins, otherwise the first matching
structural heuristic in priority order (TVR before DVR before sales
order, so a payload matching several signatures gets the earliest), and
otherwise the fixed fallback default. -/
theorem claim_C3 (p : PyDict) : «_pick_tool_name» p = pickToolNameSpec p := by
  unfold «_pick_tool_name» pickToolNameSpec hintOfSpec
  cases hlk : lookupKey p "__tool" with
  | none => exact heuristicName_eq_rules p
  | some v =>
    cases v with
    | str h =>
      by_cases hc : h ∈ ALLOWED_POST_TOOLS
      · simp [hc]
      · simp [hc, heuristicName_eq_rules p]
    | null => exact heuristicName_eq_rules p
    | bool b => exact heuristicName_eq_rules p
    | num n => exact heuristicName_eq_rules p
    | float l => exact heuristicName_eq_rules p
    | arr xs => exact heuristicName_eq_rules p
    | obj fs => exact heuristicName_eq_rules p

/-- C7: the Argument Sanitizer keeps exactly the entries whose key is
outside the closed `CLEAN` set and whose value is non-null, preserving
them unchanged and in order (it is a sublist of the input); it is a pure
total function (so it cannot raise); and it maps the spec's example
`(inputSchema, ...), (userId, 5), (region, null)` to `[(userId, 5)]`. -/
theorem claim_C7 (args : PyDict) :
    (∀ kv : String × JVal,
        kv ∈ scrubArgs args ↔
          kv ∈ args ∧ CLEAN.contains kv.1 = false ∧ isNull kv.2 = false) ∧
    List.Sublist (scrubArgs args) args ∧
    scrubArgs [("inputSchema", JVal.obj [("type", JVal.str "object")]),
               ("userId", JVal.num 5), ("region", JVal.null)]
      = [("userId", JVal.num 5)] := by
  refine ⟨?_, ?_, ?_⟩
  · intro kv
    simp [scrubArgs, List.mem_filter]
  · exact List.filter_sublist args
  · rfl

/-! ### C5: the oversize guard runs on the stripped block -/

/-- An enclosed block of 50,001 characters that strips down to the empty
JSON object: 49,999 spaces and then the two braces. -/
def oversizedBlock : Str := List.replicate 49999 ' ' ++ emptyObjText

/-- A final text whose marker block encloses `oversizedBlock`. -/
def oversizedText : Str := openMarker ++ (oversizedBlock ++ closeMarker)

lemma oversizedBlock_no_bracket : ∀ c ∈ oversizedBlock, c ≠ '[' := by
  intro c hc
  rcases List.mem_append.mp hc with h | h
  · rw [List.eq_of_mem_replicate h]; decide
  · have h2 : c = '\x7b' ∨ c = '\x7d' := by
      have he : emptyObjText = ['\x7b', '\x7d'] := rfl
      rw [he] at h
      simpa using h
    rcases h2 with rfl | rfl <;> decide

lemma stripStr_oversizedBlock : stripStr oversizedBlock = emptyObjText := by
  unfold stripStr oversizedBlock
  rw [dropWhile_replicate_append isPySpace (by decide) 49999 emptyObjText]
  decide

/-- C5 counterexample: the claim demands that a block enclosing more than
50,000 characters be rejected with `(false, original text)` and nothing
stored; the code strips the block before measuring it, so this text —
50,001 enclosed characters, almost all whitespace — is parsed, accepted
(`is_confirmation_request = true`) and its payload stored. -/
theorem claim_C5_counterexample :
    oversizedBlock.length > MAX_PAYLOAD_CHARS ∧
    (check_and_store_post_request_core oversizedText emptyState).1.1 = true ∧
    (check_and_store_post_request_core oversizedText emptyState).2.pending_tool_payload
      = some [] ∧
    (check_and_store_post_request_core oversizedText emptyState).2.pending_tool_name
      = some "post_sales_order" := by
  have e1 : splitOnce openMarker oversizedText = some ([], oversizedBlock ++ closeMarker) :=
    splitOnce_self (by decide) _
  have hcont : containsSub openMarker oversizedText = true := by
    unfold containsSub; rw [e1]; rfl
  have hne : oversizedText.isEmpty = false := rfl
  have hsearch2 : searchPayload oversizedText = some ([], oversizedBlock, []) :=
    searchPayload_wrap oversizedBlock_no_bracket
  have hguard : «_guard_payload» (stripStr oversizedBlock) = some [] := by
    rw [stripStr_oversizedBlock]; rfl
  have hres : check_and_store_post_request_core oversizedText emptyState
      = ((true, stripStr (subAll oversizedText), some "post_sales_order", some []),
         { messages := none, pending_tool_payload := some [],
           pending_tool_name := some "post_sales_order" }) := by
    have hni : ¬((oversizedText.isEmpty || !containsSub openMarker oversizedText) = true) := by
      rw [hne, hcont]; decide
    unfold check_and_store_post_request_core
    rw [if_neg hni, hsearch2]
    dsimp only
    rw [hguard]
    rfl
  refine ⟨?_, ?_, ?_, ?_⟩
  · have hlen : oversizedBlock.length = 50001 := by
      unfold oversizedBlock
      rw [List.length_append, List.length_replicate]
      rfl
    rw [hlen]; decide
  · rw [hres]
  · rw [hres]
  · rw [hres]

/-- C5 as amended (the correction the counterexample forces): the size
guard applies to the *stripped* text between the markers.  Whenever the
enclosed block, after stripping leading and trailing whitespace, exceeds
50,000 characters, the extractor rejects it without attempting to parse,
stores nothing on the session, and returns `(false, original text)`
verbatim. -/
theorem claim_C5 (t : Str) (st : UserState) (b g a : Str)
    (hs : searchPayload t = some (b, g, a))
    (hlen : (stripStr g).length > MAX_PAYLOAD_CHARS) :
    check_and_store_post_request_core t st = ((false, t, none, none), st) := by
  have h1 : ∃ rest, splitOnce openMarker t = some (b, rest) ∧
      splitOnce closeMarker rest = some (g, a) := by
    unfold searchPayload at hs
    cases e1 : splitOnce openMarker t with
    | none => rw [e1] at hs; simp at hs
    | some pr =>
      obtain ⟨b2, rest⟩ := pr
      rw [e1] at hs
      dsimp only at hs
      cases e2 : splitOnce closeMarker rest with
      | none => rw [e2] at hs; simp at hs
      | some pg =>
        obtain ⟨g2, a2⟩ := pg
        rw [e2] at hs
        dsimp only at hs
        rw [Option.some.injEq, Prod.mk.injEq, Prod.mk.injEq] at hs
        obtain ⟨hb, hg, ha⟩ := hs
        subst hb; subst hg; subst ha
        exact ⟨rest, rfl, e2⟩
  obtain ⟨rest, e1, e2⟩ := h1
  have hcont : containsSub openMarker t = true := by
    unfold containsSub; rw [e1]; rfl
  have hne : t.isEmpty = false := by
    cases t with
    | nil => simp [splitOnce] at e1
    | cons c cs => rfl
  have hsr : searchPayload t = some (b, g, a) := by
    unfold searchPayload
    rw [e1]
    dsimp only
    rw [e2]
  have hguard : «_guard_payload» (stripStr g) = none := by
    unfold «_guard_payload»
    rw [if_pos hlen]
  have hni : ¬((t.isEmpty || !containsSub openMarker t) = true) := by
    rw [hne, hcont]; decide
  unfold check_and_store_post_request_core
  rw [if_neg hni, hsr]
  dsimp only
  rw [hguard]

/-- Witness for C5 (amended) on a block of 50,001 non-whitespace
characters, which survives stripping and is rejected. -/
theorem claim_C5_witness :
    check_and_store_post_request_core
        (openMarker ++ (List.replicate 50001 'x' ++ closeMarker)) emptyState
      = ((false, openMarker ++ (List.replicate 50001 'x' ++ closeMarker), none, none),
         emptyState) :=
  claim_C5 (openMarker ++ (List.replicate 50001 'x' ++ closeMarker)) emptyState
    [] (List.replicate 50001 'x') []
    (searchPayload_wrap (fun c hc => by rw [List.eq_of_mem_replicate hc]; decide))
    (by rw [stripStr_replicate (by decide), List.length_replicate]; decide)

/-! ### C9, C4, C2: the tool-call loop -/

/-- C9: when the Completion Provider yields nothing the loop terminates
with the fixed degraded message and `awaiting_confirmation = false`,
leaving the session state otherwise intact: at loop level the state is
returned unchanged, and at handler level the only mutation is the
already-appended user message (with the system prompt installed on a
fresh history); the pending-write slot fields are untouched. -/
theorem claim_C9 :
    (∀ (gw : Gateway) (script : List (Option AiMsg)) (st : UserState),
        chatLoop gw (none :: script) st = (.ok (degradedReply, false), st)) ∧
    (∀ (gw : Gateway) (sysPrompt : Str) (script : List (Option AiMsg))
        (st : UserState) (text : Str),
        ChatService.handle gw sysPrompt (none :: script) st text =
          (.ok (degradedReply, false),
           { st with messages := some (st.messages.getD [Msg.system sysPrompt] ++ [Msg.user text]) })) :=
  ⟨fun _ _ _ => rfl, fun gw sysPrompt script st text => by
    obtain ⟨ms, pp, pn⟩ := st
    cases ms <;> rfl⟩

/-- The per-call arguments are usable by the scrub comprehension: the
parse either fails (caught: the empty dict) or yields a JSON object.
When it yields a non-object, `args.items()` raises. -/
def argsObjOk (tc : ToolCall) : Bool :=
  match jsonLoads (rawArguments tc) with
  | none => true
  | some (.obj _) => true
  | some _ => false

/-- The id of a `tool`-role message. -/
def msgToolId : Msg → Option String
  | .tool i _ => some i
  | _ => none

lemma processToolCall_ok (gw : Gateway) (tc : ToolCall) (h : argsObjOk tc = true) :
    ∃ c, processToolCall gw tc = .ok (Msg.tool tc.id c) := by
  unfold argsObjOk at h
  cases hj : jsonLoads (rawArguments tc) with
  | none =>
    have hv : argsValueOf tc = .obj [] := by unfold argsValueOf; rw [hj]
    cases hg : gw tc.fn (scrubArgs []) with
    | ok r => exact ⟨dumpJson r, by simp [processToolCall, hv, hg]⟩
    | error e =>
      exact ⟨"Error executing tool ".data ++ tc.fn.data ++ ": ".data ++ e,
        by simp [processToolCall, hv, hg]⟩
  | some v =>
    rw [hj] at h
    cases v with
    | obj fields =>
      have hv : argsValueOf tc = .obj fields := by unfold argsValueOf; rw [hj]
      cases hg : gw tc.fn (scrubArgs fields) with
      | ok r => exact ⟨dumpJson r, by simp [processToolCall, hv, hg]⟩
      | error e =>
        exact ⟨"Error executing tool ".data ++ tc.fn.data ++ ": ".data ++ e,
          by simp [processToolCall, hv, hg]⟩
    | null => simp at h
    | bool b => simp at h
    | num n => simp at h
    | float l => simp at h
    | str s => simp at h
    | arr xs => simp at h

/-- C4: a tool-call whose arguments string fails to parse is processed
exactly as if its arguments were the empty object — the parse failure is
caught, the call is made with empty (scrubbed) arguments, and processing
the call always succeeds with one tool message, so a malformed arguments
string never aborts the turn or raises out of the handler. -/
theorem claim_C4 (gw : Gateway) (tc : ToolCall)
    (h : jsonLoads (rawArguments tc) = none) :
    processToolCall gw tc = processToolCall gw { tc with arguments := some emptyObjText } ∧
    ∃ c, processToolCall gw tc = .ok (Msg.tool tc.id c) := by
  constructor
  · have hv1 : argsValueOf tc = .obj [] := by unfold argsValueOf; rw [h]
    have hv2 : argsValueOf { tc with arguments := some emptyObjText } = .obj [] := rfl
    unfold processToolCall
    rw [hv1, hv2]
  · exact processToolCall_ok gw tc (by unfold argsObjOk; rw [h])

/-- Witness for C4 on an unparsable arguments string. -/
theorem claim_C4_witness :
    (processToolCall (fun _ _ => Except.ok JVal.null)
        { id := "call_7", fn := "get_dealers", arguments := some "not json".data }
      = processToolCall (fun _ _ => Except.ok JVal.null)
        { id := "call_7", fn := "get_dealers", arguments := some emptyObjText }) ∧
    ∃ c, processToolCall (fun _ _ => Except.ok JVal.null)
        { id := "call_7", fn := "get_dealers", arguments := some "not json".data }
      = .ok (Msg.tool "call_7" c) :=
  claim_C4 (fun _ _ => Except.ok JVal.null)
    { id := "call_7", fn := "get_dealers", arguments := some "not json".data } rfl

/-- C2 counterexample: a round with one tool-call request whose
arguments string is valid JSON but not an object (here `"5"`) appends
zero tool messages — not one per request — and raises out of the
handler (`args.items()` on an int), so the round is not processed to
completion as the claim states for every round. -/
theorem claim_C2_counterexample :
    (runToolCalls (fun _ _ => Except.ok JVal.null) []
        [{ id := "call_1", fn := "get_report", arguments := some "5".data }]).2
      = some PyErr.attributeError ∧
    (runToolCalls (fun _ _ => Except.ok JVal.null) []
        [{ id := "call_1", fn := "get_report", arguments := some "5".data }]).1.length
      = 0 :=
  ⟨rfl, rfl⟩

/-- C2 as amended (the correction the counterexample forces): for every
round all of whose requests carry arguments that parse to an object or
fail to parse, exactly one `tool`-role message is appended per request,
in request order, each carrying its request's `tool_call_id`, with no
abort — every request of the round is processed before the provider is
asked again. -/
theorem claim_C2 (gw : Gateway) (msgs : List Msg) (tcs : List ToolCall)
    (h : ∀ tc ∈ tcs, argsObjOk tc = true) :
    ∃ appended, runToolCalls gw msgs tcs = (msgs ++ appended, none) ∧
      appended.map msgToolId = tcs.map (fun tc => some tc.id) := by
  revert h
  induction tcs generalizing msgs with
  | nil =>
    intro h
    exact ⟨[], by simp [runToolCalls], rfl⟩
  | cons tc rest ih =>
    intro h
    obtain ⟨c, hc⟩ := processToolCall_ok gw tc (h tc (List.mem_cons_self tc rest))
    obtain ⟨app, happ, hids⟩ :=
      ih (msgs ++ [Msg.tool tc.id c]) (fun x hx => h x (List.mem_cons_of_mem tc hx))
    refine ⟨Msg.tool tc.id c :: app, ?_, ?_⟩
    · unfold runToolCalls
      rw [hc]
      dsimp only
      rw [happ]
      simp
    · simp [msgToolId, hids]

/-- Witness for C2 (amended) on a two-request round: one absent
arguments string (defaulted to the empty object) and one unparsable
arguments string (treated as empty). -/
theorem claim_C2_witness :
    ∃ appended,
      runToolCalls (fun _ _ => Except.ok JVal.null) []
          [{ id := "call_a", fn := "get_x", arguments := none },
           { id := "call_b", fn := "get_y", arguments := some "oops not json".data }]
        = ([] ++ appended, none) ∧
      appended.map msgToolId
        = [({ id := "call_a", fn := "get_x", arguments := none } : ToolCall),
           { id := "call_b", fn := "get_y", arguments := some "oops not json".data }].map
            (fun tc => some tc.id) :=
  claim_C2 (fun _ _ => Except.ok JVal.null) []
    [{ id := "call_a", fn := "get_x", arguments := none },
     { id := "call_b", fn := "get_y", arguments := some "oops not json".data }]
    (by decide)

end PyAgent
